import Mathlib

/-!
Shallow embedding of the deel-autocomplete repository: two React hooks,
a live-query variant (useAutocomplete) that fetches on every keystroke,
and a preload variant (useAutocompleteLoadingOnce) that fetches once on
mount and filters locally.  State updates are modelled as pure functions
on explicit state records; the network is modelled by a fetch-outcome
parameter; the onSelect callback and network calls are modelled as
explicit outputs of each step.
-/

namespace DeelAutocomplete

/-- A suggestion record as in the source: an integer id and a name. -/
structure Suggestion where
  id : Int
  name : String
deriving DecidableEq

/-- Boolean test that the first character list is a leading segment of the second. -/
def leadsWith : List Char → List Char → Bool
  | [], _ => true
  | _ :: _, [] => false
  | a :: as, b :: bs => a == b && leadsWith as bs

/-- Boolean test that the first character list occurs contiguously inside the second:
the meaning of the JavaScript expression a.includes(b) on the underlying characters. -/
def containsSeq (sub : List Char) : List Char → Bool
  | [] => sub.isEmpty
  | b :: bs => leadsWith sub (b :: bs) || containsSeq sub bs

/-- The character sequence of a string with every character lowercased:
the characters of the JavaScript value s.toLowerCase(). -/
def lowerChars (s : String) : List Char :=
  s.toList.map Char.toLower

/-- Model of the JavaScript test name.toLowerCase().includes(q.toLowerCase())
used by both variants to filter suggestions. -/
def ciIncludes (name q : String) : Bool :=
  containsSeq (lowerChars q) (lowerChars name)

/-- The first list occurs contiguously inside the second (the substring relation). -/
def OccursIn (sub s : List Char) : Prop :=
  ∃ pre post, s = pre ++ (sub ++ post)

/-- State of the live-query hook useAutocomplete: the six useState cells. -/
structure AState where
  inputValue : String
  filteredSuggestions : List Suggestion
  highlightedIndex : Int
  showSuggestions : Bool
  loading : Bool
  error : Option String
deriving DecidableEq

/-- Outcome of one network fetch: the parsed record list on success
(response.ok and json parsing succeeded), or the thrown error rendered
as a string on failure (non-2xx status or network exception). -/
inductive FetchResult where
  | success (data : List Suggestion)
  | failure (msg : String)
deriving DecidableEq

/-- The error string built in both catch blocks. -/
def errorText (msg : String) : String :=
  "Error fetching suggestions - " ++ msg ++ ", please try again later"

/-- Start of fetchFilteredSuggestions: setError(null); setLoading(true). -/
def fetchStart (s : AState) : AState :=
  { s with error := none, loading := true }

/-- Body of fetchFilteredSuggestions after the fetch settles: the try branch
filters and maps the data and shows the dropdown; the catch branch records
the error and clears the suggestions; the finally branch clears loading. -/
def fetchResolve (query : String) (r : FetchResult) (s : AState) : AState :=
  match r with
  | FetchResult.success data =>
    let filtered := (data.filter (fun user => ciIncludes user.name query)).map
      (fun user => { id := user.id, name := user.name : Suggestion })
    { s with filteredSuggestions := filtered, showSuggestions := true, loading := false }
  | FetchResult.failure msg =>
    { s with error := some (errorText msg), filteredSuggestions := [],
             loading := false }

/-- fetchFilteredSuggestions of useAutocomplete, run to completion:
the entry assignments followed by the settled try-catch-finally. -/
def fetchFilteredSuggestions (query : String) (r : FetchResult) (s : AState) : AState :=
  fetchResolve query r (fetchStart s)

/-- handleChange of useAutocomplete.  Returns the new state and the number of
network calls issued (1 exactly when the value changed to a non-empty string). -/
def handleChange (userInput : String) (r : FetchResult) (s : AState) : AState × Nat :=
  if s.inputValue ≠ userInput then
    let s1 := { s with inputValue := userInput }
    if userInput ≠ "" then
      (fetchFilteredSuggestions userInput r s1, 1)
    else
      ({ s1 with filteredSuggestions := [], showSuggestions := false, error := none }, 0)
  else
    (s, 0)

/-- handleClick of useAutocomplete.  Returns the new state and the list of
values passed to the external onSelect callback. -/
def handleClick (sugg : Suggestion) (s : AState) : AState × List String :=
  ({ s with inputValue := sugg.name, filteredSuggestions := [],
            showSuggestions := false, highlightedIndex := -1, error := none },
   [sugg.name])

/-- The keyboard keys the keydown handlers distinguish. -/
inductive Key where
  | arrowDown
  | arrowUp
  | enter
  | other
deriving DecidableEq

/-- handleKeyDown of useAutocomplete.  The value none models the runtime
TypeError thrown in JavaScript when Enter indexes the filtered list out of
bounds (the access yields undefined and handleClick then reads undefined.name);
in that case no state update happens.  Otherwise the new state and the
onSelect invocations are returned. -/
def handleKeyDown (key : Key) (s : AState) : Option (AState × List String) :=
  if key = Key.arrowDown ∧ s.highlightedIndex < (s.filteredSuggestions.length : Int) - 1 then
    some ({ s with highlightedIndex := s.highlightedIndex + 1 }, [])
  else if key = Key.arrowUp ∧ s.highlightedIndex > 0 then
    some ({ s with highlightedIndex := s.highlightedIndex - 1 }, [])
  else if key = Key.enter then
    if s.highlightedIndex ≥ 0 then
      match s.filteredSuggestions.get? s.highlightedIndex.toNat with
      | some sugg => some (handleClick sugg s)
      | none => none
    else if (s.filteredSuggestions.length : Int) > 0 then
      match s.filteredSuggestions.get? 0 with
      | some sugg => some (handleClick sugg s)
      | none => none
    else
      some ({ s with showSuggestions := false }, [])
  else
    some (s, [])

/-- Events the live-query hook reacts to.  A change event carries the outcome
the fetch would have if one is issued (the network is an oracle). -/
inductive LiveEvent where
  | change (value : String) (r : FetchResult)
  | keyDown (key : Key)
  | click (sugg : Suggestion)
  | outsideClick
deriving DecidableEq

/-- Observable output of one step: the next state, the number of network
calls issued, and the values passed to the external onSelect callback. -/
structure StepOut (σ : Type) where
  state : σ
  calls : Nat
  selected : List String
deriving DecidableEq

/-- One step of the live-query hook; none models a crash (unhandled TypeError). -/
def liveStep (e : LiveEvent) (s : AState) : Option (StepOut AState) :=
  match e with
  | LiveEvent.change v r =>
    let p := handleChange v r s
    some ⟨p.1, p.2, []⟩
  | LiveEvent.keyDown k =>
    match handleKeyDown k s with
    | some p => some ⟨p.1, 0, p.2⟩
    | none => none
  | LiveEvent.click sugg =>
    let p := handleClick sugg s
    some ⟨p.1, 0, p.2⟩
  | LiveEvent.outsideClick =>
    some ⟨{ s with showSuggestions := false }, 0, []⟩

/-- Run the live-query hook over a list of events; none once a step crashes. -/
def liveRun : List LiveEvent → AState → Option AState
  | [], s => some s
  | e :: es, s =>
    match liveStep e s with
    | some out => liveRun es out.state
    | none => none

/-- Initial state of useAutocomplete for a given initial query. -/
def liveInit (query : String) : AState :=
  { inputValue := query, filteredSuggestions := [], highlightedIndex := -1,
    showSuggestions := false, loading := false, error := none }

/-- State of the live-query hook together with the queries of the fetches
that have been issued but whose responses are still pending.  This makes
the await point inside fetchFilteredSuggestions explicit: the entry
assignments run when the request is issued, the rest of the body runs only
when the response settles, and nothing cancels or fences an in-flight
request when later events occur. -/
structure LState where
  base : AState
  pending : List String
deriving DecidableEq

/-- Events of the live-query hook with the fetch suspension made explicit:
a change event only issues the request; a settle event delivers the outcome
of the pending request at a given position, so responses may settle in any
order relative to later events. -/
inductive AsyncEvent where
  | change (value : String)
  | settle (idx : Nat) (r : FetchResult)
  | keyDown (key : Key)
  | click (sugg : Suggestion)
  | outsideClick
deriving DecidableEq

/-- The synchronous prefix of the live-query handleChange: update the input,
then either run the entry assignments of fetchFilteredSuggestions and record
the pending request (non-empty value) or clear the suggestions (empty
value); the pending requests are left untouched in every branch. -/
def asyncChange (userInput : String) (s : LState) : LState :=
  if s.base.inputValue ≠ userInput then
    let s1 := { s.base with inputValue := userInput }
    if userInput ≠ "" then
      { base := fetchStart s1, pending := s.pending ++ [userInput] }
    else
      { base := { s1 with filteredSuggestions := [], showSuggestions := false,
                          error := none },
        pending := s.pending }
  else
    s

/-- One event of the live-query hook with suspended fetches.  A settle event
removes the pending request at the given position and runs the remainder of
fetchFilteredSuggestions (the try continuation, the catch, the finally) with
that request's query against the current state; a settle position with no
pending request corresponds to no program event.  The keydown crash is none,
as in liveStep. -/
def asyncStep (e : AsyncEvent) (s : LState) : Option LState :=
  match e with
  | AsyncEvent.change v => some (asyncChange v s)
  | AsyncEvent.settle idx r =>
    match s.pending.get? idx with
    | some q =>
      some { base := fetchResolve q r s.base, pending := s.pending.eraseIdx idx }
    | none => none
  | AsyncEvent.keyDown k =>
    match handleKeyDown k s.base with
    | some p => some { s with base := p.1 }
    | none => none
  | AsyncEvent.click sugg =>
    some { s with base := (handleClick sugg s.base).1 }
  | AsyncEvent.outsideClick =>
    some { s with base := { s.base with showSuggestions := false } }

/-- Run the live-query hook with suspended fetches over a list of events. -/
def asyncRun : List AsyncEvent → LState → Option LState
  | [], s => some s
  | e :: es, s =>
    match asyncStep e s with
    | some s1 => asyncRun es s1
    | none => none

/-- Initial suspended-fetch state: no pending requests. -/
def asyncInit (query : String) : LState :=
  { base := liveInit query, pending := [] }

/-- The state reached when the fetch issued for the input a settles
successfully only after the input has been emptied: the settled continuation
has stored its filtered record and shown the dropdown although the input is
empty. -/
def staleResolvedState : LState where
  base :=
    { inputValue := "", filteredSuggestions := [⟨1, "a"⟩], highlightedIndex := -1,
      showSuggestions := true, loading := false, error := none }
  pending := []

/-- State of the preload hook useAutocompleteLoadingOnce: the seven useState
cells, the extra one being the cached full candidate set. -/
structure PState where
  inputValue : String
  allSuggestions : List Suggestion
  filteredSuggestions : List Suggestion
  highlightedIndex : Int
  showSuggestions : Bool
  loading : Bool
  error : Option String
deriving DecidableEq

/-- Start of fetchAllSuggestions: setError(null); setLoading(true). -/
def fetchAllStart (s : PState) : PState :=
  { s with error := none, loading := true }

/-- Body of fetchAllSuggestions after the fetch settles: the try branch maps
and caches the data; the catch branch records the error and clears the cache;
the finally branch clears loading. -/
def fetchAllResolve (r : FetchResult) (s : PState) : PState :=
  match r with
  | FetchResult.success data =>
    let suggestions := data.map (fun user => { id := user.id, name := user.name : Suggestion })
    { s with allSuggestions := suggestions, loading := false }
  | FetchResult.failure msg =>
    { s with error := some (errorText msg), allSuggestions := [], loading := false }

/-- fetchAllSuggestions of useAutocompleteLoadingOnce (the mount effect),
run to completion.  It is the single place the preload variant touches
the network: issuing it counts as one network call. -/
def fetchAllSuggestions (r : FetchResult) (s : PState) : PState :=
  fetchAllResolve r (fetchAllStart s)

/-- handleChange of useAutocompleteLoadingOnce: a pure local filter over the
cached set; it never touches the network, so the call count is 0. -/
def pHandleChange (userInput : String) (s : PState) : PState × Nat :=
  let s1 := { s with inputValue := userInput }
  if userInput ≠ "" then
    ({ s1 with
        filteredSuggestions :=
          s.allSuggestions.filter (fun sugg => ciIncludes sugg.name userInput),
        showSuggestions := true }, 0)
  else
    ({ s1 with filteredSuggestions := [], showSuggestions := false }, 0)

/-- handleClick of useAutocompleteLoadingOnce. -/
def pHandleClick (sugg : Suggestion) (s : PState) : PState × List String :=
  ({ s with inputValue := sugg.name, filteredSuggestions := [],
            showSuggestions := false, highlightedIndex := -1, error := none },
   [sugg.name])

/-- handleKeyDown of useAutocompleteLoadingOnce, identical in the source to
the live-query one; none models the same out-of-bounds TypeError. -/
def pHandleKeyDown (key : Key) (s : PState) : Option (PState × List String) :=
  if key = Key.arrowDown ∧ s.highlightedIndex < (s.filteredSuggestions.length : Int) - 1 then
    some ({ s with highlightedIndex := s.highlightedIndex + 1 }, [])
  else if key = Key.arrowUp ∧ s.highlightedIndex > 0 then
    some ({ s with highlightedIndex := s.highlightedIndex - 1 }, [])
  else if key = Key.enter then
    if s.highlightedIndex ≥ 0 then
      match s.filteredSuggestions.get? s.highlightedIndex.toNat with
      | some sugg => some (pHandleClick sugg s)
      | none => none
    else if (s.filteredSuggestions.length : Int) > 0 then
      match s.filteredSuggestions.get? 0 with
      | some sugg => some (pHandleClick sugg s)
      | none => none
    else
      some ({ s with showSuggestions := false }, [])
  else
    some (s, [])

/-- Events the preload hook reacts to after the mount fetch; change events
carry no fetch outcome because handleChange issues no network call. -/
inductive PEvent where
  | change (value : String)
  | keyDown (key : Key)
  | click (sugg : Suggestion)
  | outsideClick
deriving DecidableEq

/-- One step of the preload hook; none models a crash (unhandled TypeError). -/
def preloadStep (e : PEvent) (s : PState) : Option (StepOut PState) :=
  match e with
  | PEvent.change v =>
    let p := pHandleChange v s
    some ⟨p.1, p.2, []⟩
  | PEvent.keyDown k =>
    match pHandleKeyDown k s with
    | some p => some ⟨p.1, 0, p.2⟩
    | none => none
  | PEvent.click sugg =>
    let p := pHandleClick sugg s
    some ⟨p.1, 0, p.2⟩
  | PEvent.outsideClick =>
    some ⟨{ s with showSuggestions := false }, 0, []⟩

/-- Run the preload hook over a list of events; none once a step crashes. -/
def preloadRun : List PEvent → PState → Option PState
  | [], s => some s
  | e :: es, s =>
    match preloadStep e s with
    | some out => preloadRun es out.state
    | none => none

/-- Total network calls issued by a list of post-mount preload events. -/
def preloadRunCalls : List PEvent → PState → Nat
  | [], _ => 0
  | e :: es, s =>
    match preloadStep e s with
    | some out => out.calls + preloadRunCalls es out.state
    | none => 0

/-- Initial state of useAutocompleteLoadingOnce for a given initial query. -/
def preloadInit (query : String) : PState :=
  { inputValue := query, allSuggestions := [], filteredSuggestions := [],
    highlightedIndex := -1, showSuggestions := false, loading := false, error := none }

/-- Total network calls over a whole preload lifetime: the one call made by
the mount effect fetchAllSuggestions, plus whatever the subsequent input,
keyboard and click events issue. -/
def preloadLifetimeCalls (query : String) (r : FetchResult) (es : List PEvent) : Nat :=
  1 + preloadRunCalls es (fetchAllSuggestions r (preloadInit query))

/-- The mutually exclusive views renderSuggestions can produce.  noOutput is
the null return; suggestionList carries the rendered items together with the
highlighted index and the input whose occurrences are emphasized. -/
inductive RenderView where
  | noOutput
  | loadingView
  | errorView (msg : String)
  | noMatch
  | suggestionList (items : List Suggestion) (highlighted : Int) (input : String)
deriving DecidableEq

/-- JavaScript truthiness of a string-or-null value: non-null and non-empty. -/
def truthy : Option String → Bool
  | none => false
  | some m => m ≠ ""

/-- The showSuggestions block shared by both renderers: when the dropdown is
visible and the input non-empty, render the list or the no-match message. -/
def renderBody (inputValue : String) (filtered : List Suggestion)
    (highlighted : Int) (show_ : Bool) : RenderView :=
  if show_ = true ∧ inputValue ≠ "" then
    if 0 < filtered.length then
      RenderView.suggestionList filtered highlighted inputValue
    else
      RenderView.noMatch
  else
    RenderView.noOutput

/-- renderSuggestions of useAutocomplete: loading first, then a truthy error,
then the visible list or no-match block, else nothing. -/
def renderSuggestions (s : AState) : RenderView :=
  if s.loading = true then
    RenderView.loadingView
  else if truthy s.error = true then
    RenderView.errorView (s.error.getD (""))
  else
    renderBody s.inputValue s.filteredSuggestions s.highlightedIndex s.showSuggestions

/-- renderSuggestions of useAutocompleteLoadingOnce: the loading and error
views additionally require a non-empty input. -/
def pRenderSuggestions (s : PState) : RenderView :=
  if s.loading = true ∧ s.inputValue ≠ "" then
    RenderView.loadingView
  else if truthy s.error = true ∧ s.inputValue ≠ "" then
    RenderView.errorView (s.error.getD (""))
  else
    renderBody s.inputValue s.filteredSuggestions s.highlightedIndex s.showSuggestions

/-- A concrete live-query state with two candidates and the first highlighted,
used to evaluate the keyboard handlers. -/
def exampleA : AState :=
  { inputValue := "mar", filteredSuggestions := [⟨1, "Margo"⟩, ⟨2, "Mark"⟩],
    highlightedIndex := 0, showSuggestions := true, loading := false, error := none }

/-- exampleA with nothing highlighted. -/
def exampleA1 : AState :=
  { exampleA with highlightedIndex := -1 }

/-- exampleA with an empty candidate set and nothing highlighted. -/
def exampleA2 : AState :=
  { exampleA with filteredSuggestions := [], highlightedIndex := -1 }

/-- exampleA with an empty candidate set but a stale highlighted index. -/
def exampleA3 : AState :=
  { exampleA with filteredSuggestions := [], highlightedIndex := 0 }

/-- The preload counterpart of exampleA. -/
def exampleP : PState :=
  { inputValue := "mar", allSuggestions := [⟨1, "Margo"⟩, ⟨2, "Mark"⟩],
    filteredSuggestions := [⟨1, "Margo"⟩, ⟨2, "Mark"⟩],
    highlightedIndex := 0, showSuggestions := true, loading := false, error := none }

/-- exampleP with nothing highlighted. -/
def exampleP1 : PState :=
  { exampleP with highlightedIndex := -1 }

/-- exampleP with an empty candidate set and nothing highlighted. -/
def exampleP2 : PState :=
  { exampleP with filteredSuggestions := [], highlightedIndex := -1 }

/-- exampleP with an empty candidate set but a stale highlighted index. -/
def exampleP3 : PState :=
  { exampleP with filteredSuggestions := [], highlightedIndex := 0 }

/-- exampleA with the dropdown hidden, used to evaluate the renderer. -/
def exampleA4 : AState :=
  { exampleA with showSuggestions := false }

/-- exampleP with an empty input, used to evaluate the renderer. -/
def exampleP4 : PState :=
  { exampleP with inputValue := "" }

/-- The live-query state right after a successful fetch for the query ma. -/
def exampleA5 : AState :=
  { inputValue := "ma", filteredSuggestions := [⟨1, "Margo"⟩], highlightedIndex := -1,
    showSuggestions := true, loading := false, error := none }

/-! Helper lemmas about the substring test and the filter/map pipeline. -/

theorem leadsWith_iff (sub s : List Char) :
    leadsWith sub s = true ↔ ∃ t, s = sub ++ t := by
  induction sub generalizing s with
  | nil =>
    simp [leadsWith]
  | cons a as ih =>
    cases s with
    | nil => simp [leadsWith]
    | cons b bs =>
      simp only [leadsWith, Bool.and_eq_true, beq_iff_eq, ih, List.cons_append,
        List.cons.injEq]
      constructor
      · rintro ⟨hab, t, ht⟩
        exact ⟨t, hab.symm, ht⟩
      · rintro ⟨t, hba, ht⟩
        exact ⟨hba.symm, t, ht⟩

theorem containsSeq_iff (sub s : List Char) :
    containsSeq sub s = true ↔ OccursIn sub s := by
  induction s with
  | nil =>
    simp only [containsSeq, OccursIn, List.isEmpty_iff]
    constructor
    · intro h
      exact ⟨[], [], by simp [h]⟩
    · rintro ⟨pre, post, h⟩
      rcases List.append_eq_nil.mp h.symm with ⟨hpre, hrest⟩
      exact (List.append_eq_nil.mp hrest).1
  | cons b bs ih =>
    simp only [containsSeq, Bool.or_eq_true, leadsWith_iff, ih, OccursIn]
    constructor
    · rintro (⟨t, ht⟩ | ⟨pre, post, h⟩)
      · exact ⟨[], t, by simp [ht]⟩
      · exact ⟨b :: pre, post, by simp [h]⟩
    · rintro ⟨pre, post, h⟩
      cases pre with
      | nil =>
        exact Or.inl ⟨post, by simpa using h⟩
      | cons p ps =>
        simp only [List.cons_append, List.cons.injEq] at h
        exact Or.inr ⟨ps, post, h.2⟩

theorem ciIncludes_iff (name q : String) :
    ciIncludes name q = true ↔ OccursIn (lowerChars q) (lowerChars name) :=
  containsSeq_iff _ _

theorem map_mk_eta (l : List Suggestion) :
    l.map (fun user => { id := user.id, name := user.name : Suggestion }) = l := by
  induction l with
  | nil => rfl
  | cons a t ih => simp [ih]

/-- C1: for every non-empty query and every fetched record list, the candidate
set produced by the live-query filter (fetchFilteredSuggestions on a successful
fetch) and by the preload local filter (handleChange of the preload variant)
contains exactly the records whose name contains the query as a
case-insensitive substring, and no others. -/
theorem candidate_set_exact :
    (∀ (q : String) (data : List Suggestion) (s : AState), q ≠ "" →
      ∀ u, u ∈ (fetchFilteredSuggestions q (FetchResult.success data) s).filteredSuggestions ↔
        u ∈ data ∧ OccursIn (lowerChars q) (lowerChars u.name)) ∧
    (∀ (q : String) (s : PState), q ≠ "" →
      ∀ u, u ∈ (pHandleChange q s).1.filteredSuggestions ↔
        u ∈ s.allSuggestions ∧ OccursIn (lowerChars q) (lowerChars u.name)) := by
  constructor
  · intro q data s _ u
    simp only [fetchFilteredSuggestions, fetchResolve, fetchStart, map_mk_eta,
      List.mem_filter, ciIncludes_iff]
  · intro q s hq u
    simp only [pHandleChange, if_pos hq, List.mem_filter, ciIncludes_iff]

/-- Witness for C1 at the query ma against the records Margo and Bob. -/
theorem candidate_set_exact_witness :
    ("ma" : String) ≠ "" ∧
    ((⟨1, "Margo"⟩ : Suggestion) ∈
        (fetchFilteredSuggestions ("ma")
          (FetchResult.success [⟨1, "Margo"⟩, ⟨2, "Bob"⟩]) (liveInit (""))).filteredSuggestions ↔
      (⟨1, "Margo"⟩ : Suggestion) ∈ ([⟨1, "Margo"⟩, ⟨2, "Bob"⟩] : List Suggestion) ∧
        OccursIn (lowerChars ("ma")) (lowerChars ("Margo"))) ∧
    ((⟨2, "Bob"⟩ : Suggestion) ∈
        (pHandleChange ("ma") (preloadInit (""))).1.filteredSuggestions ↔
      (⟨2, "Bob"⟩ : Suggestion) ∈ (preloadInit ("")).allSuggestions ∧
        OccursIn (lowerChars ("ma")) (lowerChars ("Bob"))) :=
  ⟨by decide,
   candidate_set_exact.1 ("ma") [⟨1, "Margo"⟩, ⟨2, "Bob"⟩] (liveInit ("")) (by decide) ⟨1, "Margo"⟩,
   candidate_set_exact.2 ("ma") (preloadInit ("")) (by decide) ⟨2, "Bob"⟩⟩

/-- C5: in both variants a fetch failure is recorded as the descriptive error
message, the fetched set is cleared, and the loading flag is cleared; the
loading flag is cleared by the finally step on every outcome. -/
theorem fetch_failure_handling :
    (∀ (q : String) (r : FetchResult) (s : AState),
      (fetchFilteredSuggestions q r s).loading = false) ∧
    (∀ (q msg : String) (s : AState),
      (fetchFilteredSuggestions q (FetchResult.failure msg) s).error = some (errorText msg) ∧
      (fetchFilteredSuggestions q (FetchResult.failure msg) s).filteredSuggestions = []) ∧
    (∀ (r : FetchResult) (s : PState), (fetchAllSuggestions r s).loading = false) ∧
    (∀ (msg : String) (s : PState),
      (fetchAllSuggestions (FetchResult.failure msg) s).error = some (errorText msg) ∧
      (fetchAllSuggestions (FetchResult.failure msg) s).allSuggestions = []) := by
  refine ⟨fun q r s => ?_, fun q msg s => ⟨rfl, rfl⟩, fun r s => ?_, fun msg s => ⟨rfl, rfl⟩⟩
  · cases r <;> rfl
  · cases r <;> rfl

/-- C3: selecting a suggestion, by click in either variant or by Enter on a
highlighted or defaulted entry, sets the input to exactly that suggestion's
name, clears the candidate set, hides the dropdown, resets the highlighted
index to -1, and invokes onSelect exactly once with that name. -/
theorem selection_contract :
    (∀ (sugg : Suggestion) (s : AState),
      (handleClick sugg s).1.inputValue = sugg.name ∧
      (handleClick sugg s).1.filteredSuggestions = [] ∧
      (handleClick sugg s).1.showSuggestions = false ∧
      (handleClick sugg s).1.highlightedIndex = -1 ∧
      (handleClick sugg s).2 = [sugg.name]) ∧
    (∀ (sugg : Suggestion) (s : PState),
      (pHandleClick sugg s).1.inputValue = sugg.name ∧
      (pHandleClick sugg s).1.filteredSuggestions = [] ∧
      (pHandleClick sugg s).1.showSuggestions = false ∧
      (pHandleClick sugg s).1.highlightedIndex = -1 ∧
      (pHandleClick sugg s).2 = [sugg.name]) ∧
    (∀ (s : AState) (sugg : Suggestion), 0 ≤ s.highlightedIndex →
      s.filteredSuggestions.get? s.highlightedIndex.toNat = some sugg →
      handleKeyDown Key.enter s = some (handleClick sugg s)) ∧
    (∀ (s : PState) (sugg : Suggestion), 0 ≤ s.highlightedIndex →
      s.filteredSuggestions.get? s.highlightedIndex.toNat = some sugg →
      pHandleKeyDown Key.enter s = some (pHandleClick sugg s)) := by
  refine ⟨fun sugg s => ⟨rfl, rfl, rfl, rfl, rfl⟩, fun sugg s => ⟨rfl, rfl, rfl, rfl, rfl⟩,
    fun s sugg h0 hget => ?_, fun s sugg h0 hget => ?_⟩
  · rw [List.get?_eq_getElem?] at hget
    simp [handleKeyDown, h0, hget]
  · rw [List.get?_eq_getElem?] at hget
    simp [pHandleKeyDown, h0, hget]

/-- Witness for C3: Enter with index 1 over a two-element candidate set
selects the second element in both variants. -/
theorem selection_contract_witness :
    (0 : Int) ≤ 1 ∧
    ([⟨1, "Margo"⟩, ⟨2, "Mark"⟩] : List Suggestion).get? (1 : Int).toNat = some ⟨2, "Mark"⟩ ∧
    handleKeyDown Key.enter
      { inputValue := ("mar"), filteredSuggestions := [⟨1, "Margo"⟩, ⟨2, "Mark"⟩],
        highlightedIndex := 1, showSuggestions := true, loading := false, error := none } =
      some (handleClick ⟨2, "Mark"⟩
        { inputValue := ("mar"), filteredSuggestions := [⟨1, "Margo"⟩, ⟨2, "Mark"⟩],
          highlightedIndex := 1, showSuggestions := true, loading := false, error := none }) ∧
    pHandleKeyDown Key.enter
      { inputValue := ("mar"), allSuggestions := [⟨1, "Margo"⟩, ⟨2, "Mark"⟩],
        filteredSuggestions := [⟨1, "Margo"⟩, ⟨2, "Mark"⟩],
        highlightedIndex := 1, showSuggestions := true, loading := false, error := none } =
      some (pHandleClick ⟨2, "Mark"⟩
        { inputValue := ("mar"), allSuggestions := [⟨1, "Margo"⟩, ⟨2, "Mark"⟩],
          filteredSuggestions := [⟨1, "Margo"⟩, ⟨2, "Mark"⟩],
          highlightedIndex := 1, showSuggestions := true, loading := false, error := none }) :=
  ⟨by decide, by decide,
   selection_contract.2.2.1 _ ⟨2, "Mark"⟩ (by decide) (by decide),
   selection_contract.2.2.2 _ ⟨2, "Mark"⟩ (by decide) (by decide)⟩

/-- C2: evaluation of the code at a concrete failing input.  Typing ab
(two matching records), pressing ArrowDown twice, then typing lab (one
matching record) leaves the highlighted index at 1 while the filtered set
has length 1: the index is not reset when the filtered set is replaced and
leaves the claimed range [-1, n-1]. -/
theorem highlight_not_reset_on_replacement :
    (liveRun
      [LiveEvent.change ("ab") (FetchResult.success [⟨1, "lab"⟩, ⟨2, "cab"⟩]),
       LiveEvent.keyDown Key.arrowDown,
       LiveEvent.keyDown Key.arrowDown,
       LiveEvent.change ("lab") (FetchResult.success [⟨1, "lab"⟩])]
      (liveInit (""))).map
        (fun st => (st.highlightedIndex, (st.filteredSuggestions.length : Int))) =
      some (1, 1) ∧
    ¬ ((1 : Int) ≤ 1 - 1) := by
  exact ⟨by decide, by decide⟩

/-- C10: pressing Enter with a non-negative highlighted index indexes the
filtered list at that position; a reachable state exists (stale index after
the filtered set shrank) where the index is not below the length, the access
yields no element, and the selection path crashes (no successor state). -/
theorem enter_dereferences_absent_element :
    liveRun
      [LiveEvent.change ("ma") (FetchResult.success [⟨1, "Margo"⟩, ⟨2, "Mark"⟩]),
       LiveEvent.keyDown Key.arrowDown,
       LiveEvent.keyDown Key.arrowDown,
       LiveEvent.change ("marg") (FetchResult.success [⟨1, "Margo"⟩])]
      (liveInit ("")) =
      some { inputValue := ("marg"), filteredSuggestions := [⟨1, "Margo"⟩],
             highlightedIndex := 1, showSuggestions := true, loading := false,
             error := none } ∧
    ({ inputValue := ("marg"), filteredSuggestions := [⟨1, "Margo"⟩],
       highlightedIndex := 1, showSuggestions := true, loading := false,
       error := none : AState }).filteredSuggestions.get?
      ({ inputValue := ("marg"), filteredSuggestions := [⟨1, "Margo"⟩],
         highlightedIndex := 1, showSuggestions := true, loading := false,
         error := none : AState }).highlightedIndex.toNat = none ∧
    liveStep (LiveEvent.keyDown Key.enter)
      { inputValue := ("marg"), filteredSuggestions := [⟨1, "Margo"⟩],
        highlightedIndex := 1, showSuggestions := true, loading := false,
        error := none } = none := by
  exact ⟨by decide, by decide, by decide⟩

/-- C4 counterexample: in the reachable state where the filtered set is empty
but the highlighted index is still 0, the claim predicts Enter hides the
dropdown; the code instead indexes the empty list, obtains no element, and
crashes with no successor state. -/
theorem keydown_claim_counterexample :
    liveRun
      [LiveEvent.change ("ka") (FetchResult.success [⟨1, "kab"⟩]),
       LiveEvent.keyDown Key.arrowDown,
       LiveEvent.change ("kaz") (FetchResult.success [])]
      (liveInit ("")) =
      some { inputValue := ("kaz"), filteredSuggestions := [],
             highlightedIndex := 0, showSuggestions := true, loading := false,
             error := none } ∧
    handleKeyDown Key.enter
      { inputValue := ("kaz"), filteredSuggestions := [], highlightedIndex := 0,
        showSuggestions := true, loading := false, error := none } = none := by
  exact ⟨by decide, by decide⟩

/-- C4 (amended): ArrowDown increments the index exactly when it is below
n-1 and ArrowUp decrements it exactly when it is above 0; Enter selects the
entry at index i when 0 ≤ i and the list has an element there, selects the
first entry when i < 0 and the list is non-empty, hides the dropdown when
the list is empty and i < 0, and when 0 ≤ i but the list has no element at
i the access comes back absent and there is no successor state.  Both
variants' handlers satisfy this. -/
theorem keydown_step_amended :
    (∀ s : AState, handleKeyDown Key.arrowDown s =
      some (if s.highlightedIndex < (s.filteredSuggestions.length : Int) - 1
            then { s with highlightedIndex := s.highlightedIndex + 1 } else s, [])) ∧
    (∀ s : AState, handleKeyDown Key.arrowUp s =
      some (if 0 < s.highlightedIndex
            then { s with highlightedIndex := s.highlightedIndex - 1 } else s, [])) ∧
    (∀ (s : AState) (sugg : Suggestion), 0 ≤ s.highlightedIndex →
      s.filteredSuggestions.get? s.highlightedIndex.toNat = some sugg →
      handleKeyDown Key.enter s = some (handleClick sugg s)) ∧
    (∀ (s : AState) (sugg : Suggestion), s.highlightedIndex < 0 →
      s.filteredSuggestions.get? 0 = some sugg →
      handleKeyDown Key.enter s = some (handleClick sugg s)) ∧
    (∀ s : AState, s.highlightedIndex < 0 → s.filteredSuggestions = [] →
      handleKeyDown Key.enter s = some ({ s with showSuggestions := false }, [])) ∧
    (∀ s : AState, 0 ≤ s.highlightedIndex →
      s.filteredSuggestions.get? s.highlightedIndex.toNat = none →
      handleKeyDown Key.enter s = none) ∧
    (∀ s : PState, pHandleKeyDown Key.arrowDown s =
      some (if s.highlightedIndex < (s.filteredSuggestions.length : Int) - 1
            then { s with highlightedIndex := s.highlightedIndex + 1 } else s, [])) ∧
    (∀ s : PState, pHandleKeyDown Key.arrowUp s =
      some (if 0 < s.highlightedIndex
            then { s with highlightedIndex := s.highlightedIndex - 1 } else s, [])) ∧
    (∀ (s : PState) (sugg : Suggestion), 0 ≤ s.highlightedIndex →
      s.filteredSuggestions.get? s.highlightedIndex.toNat = some sugg →
      pHandleKeyDown Key.enter s = some (pHandleClick sugg s)) ∧
    (∀ (s : PState) (sugg : Suggestion), s.highlightedIndex < 0 →
      s.filteredSuggestions.get? 0 = some sugg →
      pHandleKeyDown Key.enter s = some (pHandleClick sugg s)) ∧
    (∀ s : PState, s.highlightedIndex < 0 → s.filteredSuggestions = [] →
      pHandleKeyDown Key.enter s = some ({ s with showSuggestions := false }, [])) ∧
    (∀ s : PState, 0 ≤ s.highlightedIndex →
      s.filteredSuggestions.get? s.highlightedIndex.toNat = none →
      pHandleKeyDown Key.enter s = none) := by
  refine ⟨fun s => ?_, fun s => ?_, fun s sugg h0 hget => ?_, fun s sugg hneg hget => ?_,
    fun s hneg hnil => ?_, fun s h0 hget => ?_,
    fun s => ?_, fun s => ?_, fun s sugg h0 hget => ?_, fun s sugg hneg hget => ?_,
    fun s hneg hnil => ?_, fun s h0 hget => ?_⟩
  · by_cases h : s.highlightedIndex < (s.filteredSuggestions.length : Int) - 1 <;>
      simp [handleKeyDown, h]
  · by_cases h : 0 < s.highlightedIndex <;> simp [handleKeyDown, h]
  · rw [List.get?_eq_getElem?] at hget
    simp [handleKeyDown, h0, hget]
  · rw [List.get?_eq_getElem?] at hget
    have hlen : 0 < (s.filteredSuggestions.length : Int) := by
      obtain ⟨hlt, -⟩ := List.getElem?_eq_some_iff.mp hget
      exact_mod_cast hlt
    simp [handleKeyDown, hget, not_le.mpr hneg, hlen]
  · simp [handleKeyDown, not_le.mpr hneg, hnil]
  · rw [List.get?_eq_getElem?] at hget
    simp [handleKeyDown, h0, hget]
  · by_cases h : s.highlightedIndex < (s.filteredSuggestions.length : Int) - 1 <;>
      simp [pHandleKeyDown, h]
  · by_cases h : 0 < s.highlightedIndex <;> simp [pHandleKeyDown, h]
  · rw [List.get?_eq_getElem?] at hget
    simp [pHandleKeyDown, h0, hget]
  · rw [List.get?_eq_getElem?] at hget
    have hlen : 0 < (s.filteredSuggestions.length : Int) := by
      obtain ⟨hlt, -⟩ := List.getElem?_eq_some_iff.mp hget
      exact_mod_cast hlt
    simp [pHandleKeyDown, hget, not_le.mpr hneg, hlen]
  · simp [pHandleKeyDown, not_le.mpr hneg, hnil]
  · rw [List.get?_eq_getElem?] at hget
    simp [pHandleKeyDown, h0, hget]

/-- Witness for C4: each keyboard conjunct evaluated at a concrete state. -/
theorem keydown_step_amended_witness :
    ((0 : Int) ≤ exampleA.highlightedIndex ∧
      exampleA.filteredSuggestions.get? exampleA.highlightedIndex.toNat = some ⟨1, "Margo"⟩ ∧
      handleKeyDown Key.enter exampleA = some (handleClick ⟨1, "Margo"⟩ exampleA)) ∧
    (exampleA1.highlightedIndex < 0 ∧
      exampleA1.filteredSuggestions.get? 0 = some ⟨1, "Margo"⟩ ∧
      handleKeyDown Key.enter exampleA1 = some (handleClick ⟨1, "Margo"⟩ exampleA1)) ∧
    (exampleA2.highlightedIndex < 0 ∧ exampleA2.filteredSuggestions = [] ∧
      handleKeyDown Key.enter exampleA2 = some ({ exampleA2 with showSuggestions := false }, [])) ∧
    ((0 : Int) ≤ exampleA3.highlightedIndex ∧
      exampleA3.filteredSuggestions.get? exampleA3.highlightedIndex.toNat = none ∧
      handleKeyDown Key.enter exampleA3 = none) ∧
    ((0 : Int) ≤ exampleP.highlightedIndex ∧
      exampleP.filteredSuggestions.get? exampleP.highlightedIndex.toNat = some ⟨1, "Margo"⟩ ∧
      pHandleKeyDown Key.enter exampleP = some (pHandleClick ⟨1, "Margo"⟩ exampleP)) ∧
    (exampleP1.highlightedIndex < 0 ∧
      exampleP1.filteredSuggestions.get? 0 = some ⟨1, "Margo"⟩ ∧
      pHandleKeyDown Key.enter exampleP1 = some (pHandleClick ⟨1, "Margo"⟩ exampleP1)) ∧
    (exampleP2.highlightedIndex < 0 ∧ exampleP2.filteredSuggestions = [] ∧
      pHandleKeyDown Key.enter exampleP2 = some ({ exampleP2 with showSuggestions := false }, [])) ∧
    ((0 : Int) ≤ exampleP3.highlightedIndex ∧
      exampleP3.filteredSuggestions.get? exampleP3.highlightedIndex.toNat = none ∧
      pHandleKeyDown Key.enter exampleP3 = none) ∧
    handleKeyDown Key.arrowDown exampleA =
      some (if exampleA.highlightedIndex < (exampleA.filteredSuggestions.length : Int) - 1
            then { exampleA with highlightedIndex := exampleA.highlightedIndex + 1 }
            else exampleA, []) ∧
    pHandleKeyDown Key.arrowUp exampleP =
      some (if 0 < exampleP.highlightedIndex
            then { exampleP with highlightedIndex := exampleP.highlightedIndex - 1 }
            else exampleP, []) :=
  ⟨⟨by decide, by decide,
    keydown_step_amended.2.2.1 exampleA ⟨1, "Margo"⟩ (by decide) (by decide)⟩,
   ⟨by decide, by decide,
    keydown_step_amended.2.2.2.1 exampleA1 ⟨1, "Margo"⟩ (by decide) (by decide)⟩,
   ⟨by decide, by decide,
    keydown_step_amended.2.2.2.2.1 exampleA2 (by decide) (by decide)⟩,
   ⟨by decide, by decide,
    keydown_step_amended.2.2.2.2.2.1 exampleA3 (by decide) (by decide)⟩,
   ⟨by decide, by decide,
    keydown_step_amended.2.2.2.2.2.2.2.2.1 exampleP ⟨1, "Margo"⟩ (by decide) (by decide)⟩,
   ⟨by decide, by decide,
    keydown_step_amended.2.2.2.2.2.2.2.2.2.1 exampleP1 ⟨1, "Margo"⟩ (by decide) (by decide)⟩,
   ⟨by decide, by decide,
    keydown_step_amended.2.2.2.2.2.2.2.2.2.2.1 exampleP2 (by decide) (by decide)⟩,
   ⟨by decide, by decide,
    keydown_step_amended.2.2.2.2.2.2.2.2.2.2.2 exampleP3 (by decide) (by decide)⟩,
   keydown_step_amended.1 exampleA,
   keydown_step_amended.2.2.2.2.2.2.2.1 exampleP⟩

theorem pHandleChange_calls (v : String) (s : PState) : (pHandleChange v s).2 = 0 := by
  simp only [pHandleChange]
  split <;> rfl

theorem preloadStep_calls (e : PEvent) (s : PState) (out : StepOut PState) :
    preloadStep e s = some out → out.calls = 0 := by
  intro h
  cases e with
  | change v =>
    simp only [preloadStep, Option.some.injEq] at h
    rw [← h]
    exact pHandleChange_calls v s
  | keyDown k =>
    simp only [preloadStep] at h
    cases hk : pHandleKeyDown k s with
    | none => rw [hk] at h; cases h
    | some p =>
      rw [hk] at h
      simp only [Option.some.injEq] at h
      rw [← h]
  | click sugg =>
    simp only [preloadStep, Option.some.injEq] at h
    rw [← h]
  | outsideClick =>
    simp only [preloadStep, Option.some.injEq] at h
    rw [← h]

theorem preloadRunCalls_eq_zero (es : List PEvent) : ∀ s, preloadRunCalls es s = 0 := by
  induction es with
  | nil => intro s; rfl
  | cons e es ih =>
    intro s
    unfold preloadRunCalls
    cases hstep : preloadStep e s with
    | none => rfl
    | some out =>
      show out.calls + preloadRunCalls es out.state = 0
      rw [preloadStep_calls e s out hstep, ih]

/-- C6: the preload variant makes exactly one network call over its whole
lifetime, whatever the input events after the mount fetch; its handleChange
makes no call, leaves the cached set untouched, and on non-empty input
replaces the filtered set by a pure local case-insensitive substring filter
of the cached set. -/
theorem preload_single_fetch :
    (∀ (q : String) (r : FetchResult) (es : List PEvent),
      preloadLifetimeCalls q r es = 1) ∧
    (∀ (v : String) (s : PState),
      (pHandleChange v s).2 = 0 ∧ (pHandleChange v s).1.allSuggestions = s.allSuggestions) ∧
    (∀ (v : String) (s : PState), v ≠ "" →
      (pHandleChange v s).1.filteredSuggestions =
        s.allSuggestions.filter (fun sugg => ciIncludes sugg.name v)) := by
  refine ⟨fun q r es => ?_, fun v s => ⟨pHandleChange_calls v s, ?_⟩, fun v s hv => ?_⟩
  · unfold preloadLifetimeCalls
    rw [preloadRunCalls_eq_zero]
  · simp only [pHandleChange]
    split <;> rfl
  · simp [pHandleChange, hv]

/-- Witness for C6: one change event after a successful mount fetch. -/
theorem preload_single_fetch_witness :
    ("ma" : String) ≠ "" ∧
    (pHandleChange ("ma") exampleP).1.filteredSuggestions =
      exampleP.allSuggestions.filter (fun sugg => ciIncludes sugg.name ("ma")) ∧
    preloadLifetimeCalls ("") (FetchResult.success [⟨1, "Margo"⟩]) [PEvent.change ("ma")] = 1 :=
  ⟨by decide, preload_single_fetch.2.2 ("ma") exampleP (by decide),
   preload_single_fetch.1 ("") (FetchResult.success [⟨1, "Margo"⟩]) [PEvent.change ("ma")]⟩

/-- C7: the live-query handleChange issues a network call exactly when the
new value differs from the previous input and is non-empty; when the value
is unchanged it leaves the state untouched and issues no call; when the
input becomes empty it issues no call, clears the candidate set, hides the
dropdown and clears the error. -/
theorem live_change_contract :
    (∀ (v : String) (r : FetchResult) (s : AState),
      (handleChange v r s).2 = 1 ↔ (s.inputValue ≠ v ∧ v ≠ "")) ∧
    (∀ (v : String) (r : FetchResult) (s : AState), s.inputValue = v →
      handleChange v r s = (s, 0)) ∧
    (∀ (r : FetchResult) (s : AState), s.inputValue ≠ "" →
      handleChange ("") r s =
        ({ s with inputValue := "", filteredSuggestions := [],
                  showSuggestions := false, error := none }, 0)) := by
  refine ⟨fun v r s => ?_, fun v r s h => ?_, fun r s h => ?_⟩
  · by_cases h1 : s.inputValue = v
    · simp [handleChange, h1]
    · by_cases h2 : v = ""
      · subst h2
        simp [handleChange, h1]
      · simp [handleChange, h1, h2]
  · simp [handleChange, h]
  · simp [handleChange, h]

/-- Witness for C7: an unchanged value leaves the state alone; emptying the
input clears and hides; a changed non-empty value issues exactly one call. -/
theorem live_change_contract_witness :
    exampleA.inputValue = "mar" ∧
    handleChange ("mar") (FetchResult.failure ("boom")) exampleA = (exampleA, 0) ∧
    exampleA.inputValue ≠ "" ∧
    handleChange ("") (FetchResult.failure ("boom")) exampleA =
      ({ exampleA with inputValue := "", filteredSuggestions := [],
                       showSuggestions := false, error := none }, 0) ∧
    ((handleChange ("marg") (FetchResult.success []) exampleA).2 = 1 ↔
      (exampleA.inputValue ≠ "marg" ∧ ("marg" : String) ≠ "")) :=
  ⟨by decide,
   live_change_contract.2.1 ("mar") (FetchResult.failure ("boom")) exampleA (by decide),
   by decide,
   live_change_contract.2.2 (FetchResult.failure ("boom")) exampleA (by decide),
   live_change_contract.1 ("marg") (FetchResult.success []) exampleA⟩

theorem renderBody_eq_noOutput (i : String) (f : List Suggestion) (hi : Int) (sh : Bool) :
    ¬(sh = true ∧ i ≠ "") → renderBody i f hi sh = RenderView.noOutput := by
  intro h
  simp [renderBody, h]

theorem renderBody_noMatch_iff (i : String) (f : List Suggestion) (hi : Int) (sh : Bool) :
    renderBody i f hi sh = RenderView.noMatch ↔ (sh = true ∧ i ≠ "" ∧ f = []) := by
  unfold renderBody
  split
  · split
    · simp_all [List.length_pos]
    · simp_all [List.length_pos]
  · simp_all

/-- C8 counterexample: a state with the visibility flag false (and so claimed
to render nothing) on which the live-query renderer produces the loading view,
refuting that no visual output appears whenever visibility is false or the
input is empty. -/
theorem render_claim_counterexample :
    renderSuggestions
      { inputValue := ("q"), filteredSuggestions := [], highlightedIndex := -1,
        showSuggestions := false, loading := true, error := none } = RenderView.loadingView ∧
    ({ inputValue := ("q"), filteredSuggestions := [], highlightedIndex := -1,
       showSuggestions := false, loading := true, error := none : AState }).showSuggestions
      = false ∧
    RenderView.loadingView ≠ RenderView.noOutput := by
  exact ⟨by decide, by decide, by decide⟩

/-- C8 (amended): each renderer is a pure function of the state yielding one
of the four views or nothing; provided loading is false and no truthy error
is recorded, it yields nothing whenever the visibility flag is false or the
input is empty (the preload renderer yields nothing on empty input even
while loading or in error); the no-match view appears exactly when not
loading, with no truthy error, visible, non-empty input and an empty
candidate set; the loading flag alone forces the loading view in the
live-query renderer. -/
theorem render_views_amended :
    (∀ s : AState, s.loading = false → truthy s.error = false →
      (s.showSuggestions = false ∨ s.inputValue = "") →
      renderSuggestions s = RenderView.noOutput) ∧
    (∀ s : AState, renderSuggestions s = RenderView.noMatch ↔
      (s.loading = false ∧ truthy s.error = false ∧ s.showSuggestions = true ∧
       s.inputValue ≠ "" ∧ s.filteredSuggestions = [])) ∧
    (∀ s : AState, s.loading = true → renderSuggestions s = RenderView.loadingView) ∧
    (∀ s : AState, s.loading = false → truthy s.error = false →
      s.showSuggestions = true → s.inputValue ≠ "" → s.filteredSuggestions ≠ [] →
      renderSuggestions s =
        RenderView.suggestionList s.filteredSuggestions s.highlightedIndex s.inputValue) ∧
    (∀ s : PState, s.inputValue = "" → pRenderSuggestions s = RenderView.noOutput) ∧
    (∀ s : PState, s.loading = false → truthy s.error = false →
      (s.showSuggestions = false ∨ s.inputValue = "") →
      pRenderSuggestions s = RenderView.noOutput) ∧
    (∀ s : PState, pRenderSuggestions s = RenderView.noMatch ↔
      (s.loading = false ∧ truthy s.error = false ∧ s.showSuggestions = true ∧
       s.inputValue ≠ "" ∧ s.filteredSuggestions = [])) := by
  refine ⟨fun s hl he hc => ?_, fun s => ?_, fun s hl => ?_, fun s hl he hsh hin hf => ?_,
    fun s hin => ?_, fun s hl he hc => ?_, fun s => ?_⟩
  · simp only [renderSuggestions, hl, he]
    simp only [Bool.false_eq_true, if_false]
    refine renderBody_eq_noOutput _ _ _ _ ?_
    rintro ⟨hsh, hne⟩
    rcases hc with h | h
    · rw [h] at hsh
      exact Bool.false_ne_true hsh
    · exact hne h
  · by_cases hl : s.loading = true
    · simp [renderSuggestions, hl]
    · rw [Bool.not_eq_true] at hl
      by_cases he : truthy s.error = true
      · simp [renderSuggestions, hl, he]
      · rw [Bool.not_eq_true] at he
        simp only [renderSuggestions, hl, he, Bool.false_eq_true, if_false,
          renderBody_noMatch_iff]
        tauto
  · simp [renderSuggestions, hl]
  · simp only [renderSuggestions, hl, he, Bool.false_eq_true, if_false, renderBody]
    simp [hsh, hin, List.length_pos.mpr hf]
  · have h1 : ¬(s.loading = true ∧ s.inputValue ≠ "") := by simp [hin]
    have h2 : ¬(truthy s.error = true ∧ s.inputValue ≠ "") := by simp [hin]
    simp only [pRenderSuggestions, h1, h2, if_false]
    exact renderBody_eq_noOutput _ _ _ _ (by simp [hin])
  · have h1 : ¬(s.loading = true ∧ s.inputValue ≠ "") := by simp [hl]
    have h2 : ¬(truthy s.error = true ∧ s.inputValue ≠ "") := by simp [he]
    simp only [pRenderSuggestions, h1, h2, if_false]
    refine renderBody_eq_noOutput _ _ _ _ ?_
    rintro ⟨hsh, hne⟩
    rcases hc with h | h
    · rw [h] at hsh
      exact Bool.false_ne_true hsh
    · exact hne h
  · by_cases hin : s.inputValue = ""
    · have h1 : ¬(s.loading = true ∧ s.inputValue ≠ "") := by simp [hin]
      have h2 : ¬(truthy s.error = true ∧ s.inputValue ≠ "") := by simp [hin]
      simp only [pRenderSuggestions, h1, h2, if_false, renderBody_noMatch_iff]
      simp [hin]
    · by_cases hl : s.loading = true
      · simp [pRenderSuggestions, hl, hin]
      · rw [Bool.not_eq_true] at hl
        by_cases he : truthy s.error = true
        · simp [pRenderSuggestions, hl, he, hin]
        · rw [Bool.not_eq_true] at he
          have h1 : ¬(s.loading = true ∧ s.inputValue ≠ "") := by simp [hl]
          have h2 : ¬(truthy s.error = true ∧ s.inputValue ≠ "") := by simp [he]
          simp only [pRenderSuggestions, h1, h2, if_false, renderBody_noMatch_iff]
          tauto

/-- Witness for C8: the amended suppression and no-match conditions evaluated
at concrete states of both variants. -/
theorem render_views_amended_witness :
    exampleA4.loading = false ∧ truthy exampleA4.error = false ∧
    (exampleA4.showSuggestions = false ∨ exampleA4.inputValue = "") ∧
    renderSuggestions exampleA4 = RenderView.noOutput ∧
    exampleP4.inputValue = "" ∧
    pRenderSuggestions exampleP4 = RenderView.noOutput ∧
    (renderSuggestions exampleA2 = RenderView.noMatch ↔
      (exampleA2.loading = false ∧ truthy exampleA2.error = false ∧
       exampleA2.showSuggestions = true ∧ exampleA2.inputValue ≠ "" ∧
       exampleA2.filteredSuggestions = [])) :=
  ⟨by decide, by decide, by decide,
   render_views_amended.1 exampleA4 (by decide) (by decide) (by decide),
   by decide,
   render_views_amended.2.2.2.2.1 exampleP4 (by decide),
   render_views_amended.2.1 exampleA2⟩

theorem handleKeyDown_shape (k : Key) (s : AState) (p : AState × List String) :
    handleKeyDown k s = some p →
    (p.1.inputValue = s.inputValue ∧ p.1.showSuggestions = s.showSuggestions) ∨
    p.1.showSuggestions = false := by
  intro h
  unfold handleKeyDown at h
  split at h
  · cases h
    exact Or.inl ⟨rfl, rfl⟩
  · split at h
    · cases h
      exact Or.inl ⟨rfl, rfl⟩
    · split at h
      · split at h
        · split at h
          · cases h
            exact Or.inr rfl
          · cases h
        · split at h
          · split at h
            · cases h
              exact Or.inr rfl
            · cases h
          · cases h
            exact Or.inr rfl
      · cases h
        exact Or.inl ⟨rfl, rfl⟩

theorem pHandleKeyDown_shape (k : Key) (s : PState) (p : PState × List String) :
    pHandleKeyDown k s = some p →
    (p.1.inputValue = s.inputValue ∧ p.1.showSuggestions = s.showSuggestions) ∨
    p.1.showSuggestions = false := by
  intro h
  unfold pHandleKeyDown at h
  split at h
  · cases h
    exact Or.inl ⟨rfl, rfl⟩
  · split at h
    · cases h
      exact Or.inl ⟨rfl, rfl⟩
    · split at h
      · split at h
        · split at h
          · cases h
            exact Or.inr rfl
          · cases h
        · split at h
          · split at h
            · cases h
              exact Or.inr rfl
            · cases h
          · cases h
            exact Or.inr rfl
      · cases h
        exact Or.inl ⟨rfl, rfl⟩

theorem liveStep_vis (e : LiveEvent) (s : AState) (out : StepOut AState) :
    liveStep e s = some out → (s.inputValue = "" → s.showSuggestions = false) →
    (out.state.inputValue = "" → out.state.showSuggestions = false) := by
  intro h inv
  cases e with
  | change v r =>
    simp only [liveStep, Option.some.injEq] at h
    subst h
    by_cases h1 : s.inputValue = v
    · simp only [handleChange, h1]
      simp
      exact inv
    · by_cases h2 : v = ""
      · subst h2
        simp [handleChange, h1]
      · cases r with
        | success data =>
          simp [handleChange, h1, h2, fetchFilteredSuggestions, fetchResolve, fetchStart]
        | failure msg =>
          simp [handleChange, h1, h2, fetchFilteredSuggestions, fetchResolve, fetchStart]
  | keyDown k =>
    simp only [liveStep] at h
    cases hk : handleKeyDown k s with
    | none =>
      rw [hk] at h
      cases h
    | some p =>
      rw [hk] at h
      simp only [Option.some.injEq] at h
      subst h
      rcases handleKeyDown_shape k s p hk with ⟨hi, hs⟩ | hs
      · intro hin
        rw [hs]
        exact inv (hi ▸ hin)
      · intro _
        exact hs
  | click sugg =>
    simp only [liveStep, Option.some.injEq] at h
    subst h
    intro _
    rfl
  | outsideClick =>
    simp only [liveStep, Option.some.injEq] at h
    subst h
    intro _
    rfl

theorem preloadStep_vis (e : PEvent) (s : PState) (out : StepOut PState) :
    preloadStep e s = some out → (s.inputValue = "" → s.showSuggestions = false) →
    (out.state.inputValue = "" → out.state.showSuggestions = false) := by
  intro h inv
  cases e with
  | change v =>
    simp only [preloadStep, Option.some.injEq] at h
    subst h
    by_cases h2 : v = ""
    · subst h2
      simp [pHandleChange]
    · simp [pHandleChange, h2]
  | keyDown k =>
    simp only [preloadStep] at h
    cases hk : pHandleKeyDown k s with
    | none =>
      rw [hk] at h
      cases h
    | some p =>
      rw [hk] at h
      simp only [Option.some.injEq] at h
      subst h
      rcases pHandleKeyDown_shape k s p hk with ⟨hi, hs⟩ | hs
      · intro hin
        rw [hs]
        exact inv (hi ▸ hin)
      · intro _
        exact hs
  | click sugg =>
    simp only [preloadStep, Option.some.injEq] at h
    subst h
    intro _
    rfl
  | outsideClick =>
    simp only [preloadStep, Option.some.injEq] at h
    subst h
    intro _
    rfl

theorem liveRun_vis (es : List LiveEvent) :
    ∀ s s', liveRun es s = some s' →
    (s.inputValue = "" → s.showSuggestions = false) →
    (s'.inputValue = "" → s'.showSuggestions = false) := by
  induction es with
  | nil =>
    intro s s' h inv
    simp only [liveRun, Option.some.injEq] at h
    subst h
    exact inv
  | cons e es ih =>
    intro s s' h inv
    unfold liveRun at h
    cases hstep : liveStep e s with
    | none =>
      rw [hstep] at h
      cases h
    | some out =>
      rw [hstep] at h
      exact ih out.state s' h (liveStep_vis e s out hstep inv)

theorem preloadRun_vis (es : List PEvent) :
    ∀ s s', preloadRun es s = some s' →
    (s.inputValue = "" → s.showSuggestions = false) →
    (s'.inputValue = "" → s'.showSuggestions = false) := by
  induction es with
  | nil =>
    intro s s' h inv
    simp only [preloadRun, Option.some.injEq] at h
    subst h
    exact inv
  | cons e es ih =>
    intro s s' h inv
    unfold preloadRun at h
    cases hstep : preloadStep e s with
    | none =>
      rw [hstep] at h
      cases h
    | some out =>
      rw [hstep] at h
      exact ih out.state s' h (preloadStep_vis e s out hstep inv)

/-- Serialized-trace visibility facts: over runs in which every live-query
fetch settles before the next event (liveRun and preloadRun), the visibility
flag is false whenever the input is empty; a step can turn the flag from
false to true only on a change event with non-empty input (live-query: with
a successful fetch); and the flag is set false by an outside click, by a
selection, and by the input becoming empty.  The suspended-fetch model shows
the first fact does not survive interleaved settlement. -/
theorem visibility_contract :
    (∀ (q : String) (es : List LiveEvent) (s : AState),
      liveRun es (liveInit q) = some s → s.inputValue = "" →
      s.showSuggestions = false) ∧
    (∀ (q : String) (r : FetchResult) (es : List PEvent) (s : PState),
      preloadRun es (fetchAllSuggestions r (preloadInit q)) = some s →
      s.inputValue = "" → s.showSuggestions = false) ∧
    (∀ (e : LiveEvent) (s : AState) (out : StepOut AState),
      liveStep e s = some out → s.showSuggestions = false →
      out.state.showSuggestions = true →
      ∃ v data, e = LiveEvent.change v (FetchResult.success data) ∧ v ≠ "") ∧
    (∀ (e : PEvent) (s : PState) (out : StepOut PState),
      preloadStep e s = some out → s.showSuggestions = false →
      out.state.showSuggestions = true → ∃ v, e = PEvent.change v ∧ v ≠ "") ∧
    (∀ s : AState,
      (liveStep LiveEvent.outsideClick s).map (fun o => o.state.showSuggestions) =
        some false) ∧
    (∀ s : PState,
      (preloadStep PEvent.outsideClick s).map (fun o => o.state.showSuggestions) =
        some false) ∧
    (∀ (sugg : Suggestion) (s : AState), (handleClick sugg s).1.showSuggestions = false) ∧
    (∀ (sugg : Suggestion) (s : PState), (pHandleClick sugg s).1.showSuggestions = false) ∧
    (∀ (r : FetchResult) (s : AState), s.inputValue ≠ "" →
      (handleChange ("") r s).1.showSuggestions = false) ∧
    (∀ s : PState, (pHandleChange ("") s).1.showSuggestions = false) := by
  refine ⟨fun q es s h => liveRun_vis es (liveInit q) s h (fun _ => rfl),
    fun q r es s h => preloadRun_vis es _ s h (fun _ => by cases r <;> rfl),
    fun e s out h hfalse htrue => ?_, fun e s out h hfalse htrue => ?_,
    fun s => rfl, fun s => rfl, fun sugg s => rfl, fun sugg s => rfl,
    fun r s h => by simp [handleChange, h], fun s => by simp [pHandleChange]⟩
  · cases e with
    | change v r =>
      simp only [liveStep, Option.some.injEq] at h
      subst h
      by_cases h1 : s.inputValue = v
      · simp [handleChange, h1, hfalse] at htrue
      · by_cases h2 : v = ""
        · subst h2
          simp [handleChange, h1] at htrue
        · cases r with
          | success data => exact ⟨v, data, rfl, h2⟩
          | failure msg =>
            simp [handleChange, h1, h2, fetchFilteredSuggestions, fetchResolve,
              fetchStart, hfalse] at htrue
    | keyDown k =>
      simp only [liveStep] at h
      cases hk : handleKeyDown k s with
      | none =>
        rw [hk] at h
        cases h
      | some p =>
        rw [hk] at h
        simp only [Option.some.injEq] at h
        subst h
        rcases handleKeyDown_shape k s p hk with ⟨hi, hs⟩ | hs
        · rw [hs, hfalse] at htrue
          cases htrue
        · rw [hs] at htrue
          cases htrue
    | click sugg =>
      simp only [liveStep, Option.some.injEq] at h
      subst h
      simp [handleClick] at htrue
    | outsideClick =>
      simp only [liveStep, Option.some.injEq] at h
      subst h
      simp at htrue
  · cases e with
    | change v =>
      simp only [preloadStep, Option.some.injEq] at h
      subst h
      by_cases h2 : v = ""
      · subst h2
        simp [pHandleChange] at htrue
      · exact ⟨v, rfl, h2⟩
    | keyDown k =>
      simp only [preloadStep] at h
      cases hk : pHandleKeyDown k s with
      | none =>
        rw [hk] at h
        cases h
      | some p =>
        rw [hk] at h
        simp only [Option.some.injEq] at h
        subst h
        rcases pHandleKeyDown_shape k s p hk with ⟨hi, hs⟩ | hs
        · rw [hs, hfalse] at htrue
          cases htrue
        · rw [hs] at htrue
          cases htrue
    | click sugg =>
      simp only [preloadStep, Option.some.injEq] at h
      subst h
      simp [pHandleClick] at htrue
    | outsideClick =>
      simp only [preloadStep, Option.some.injEq] at h
      subst h
      simp at htrue

/-- Concrete instantiation of the serialized-trace visibility facts: the
reachability conjuncts at the empty trace, the origin conjunct at a concrete
successful change event, and the empty-input conjunct at a concrete state. -/
theorem visibility_contract_witness :
    (liveRun [] (liveInit ("")) = some (liveInit ("")) ∧
      (liveInit ("")).inputValue = "" ∧ (liveInit ("")).showSuggestions = false) ∧
    (preloadRun [] (fetchAllSuggestions (FetchResult.success [⟨1, "Margo"⟩]) (preloadInit (""))) =
        some (fetchAllSuggestions (FetchResult.success [⟨1, "Margo"⟩]) (preloadInit (""))) ∧
      (fetchAllSuggestions (FetchResult.success [⟨1, "Margo"⟩]) (preloadInit (""))).inputValue
        = "" ∧
      (fetchAllSuggestions (FetchResult.success [⟨1, "Margo"⟩])
        (preloadInit (""))).showSuggestions = false) ∧
    (liveStep (LiveEvent.change ("ma") (FetchResult.success [⟨1, "Margo"⟩])) (liveInit ("")) =
        some ⟨exampleA5, 1, []⟩ ∧
      (liveInit ("")).showSuggestions = false ∧
      (∃ v data,
        LiveEvent.change ("ma") (FetchResult.success [⟨1, "Margo"⟩]) =
          LiveEvent.change v (FetchResult.success data) ∧ v ≠ "")) ∧
    (exampleA.inputValue ≠ "" ∧
      (handleChange ("") (FetchResult.failure ("down")) exampleA).1.showSuggestions = false) :=
  ⟨⟨by decide, by decide,
    visibility_contract.1 ("") [] (liveInit ("")) (by decide) (by decide)⟩,
   ⟨by decide, by decide,
    visibility_contract.2.1 ("") (FetchResult.success [⟨1, "Margo"⟩]) [] _ (by decide)
      (by decide)⟩,
   ⟨by decide, by decide,
    visibility_contract.2.2.1 (LiveEvent.change ("ma") (FetchResult.success [⟨1, "Margo"⟩]))
      (liveInit ("")) ⟨exampleA5, 1, []⟩ (by decide) (by decide) (by decide)⟩,
   ⟨by decide,
    visibility_contract.2.2.2.2.2.2.2.2.1 (FetchResult.failure ("down")) exampleA
      (by decide)⟩⟩

/-- C9: evaluation of the code at a concrete failing input.  Typing a issues
a fetch whose response is still pending; clearing the input hides the
dropdown without cancelling the request; when the pending fetch then settles
successfully, the continuation of fetchFilteredSuggestions unconditionally
stores the filtered records and shows the dropdown, leaving the visibility
flag true while the input is empty - the state the claimed invariant rules
out. -/
theorem stale_fetch_shows_dropdown_on_empty_input :
    asyncRun
      [AsyncEvent.change ("a"), AsyncEvent.change (""),
       AsyncEvent.settle 0 (FetchResult.success [⟨1, "a"⟩])]
      (asyncInit ("")) = some staleResolvedState ∧
    staleResolvedState.base.inputValue = "" ∧
    staleResolvedState.base.showSuggestions = true := by
  exact ⟨by decide, rfl, rfl⟩

end DeelAutocomplete
